import Mathlib

/-!
# Verification of the namespace-driven parallel repository synchronizer

Shallow embedding of the core logic of `src/git/gitlab_cloner.py` (and the
git-invocation structure of `src/git/github_repos.py`): the path mapper, the
paginated project listers, namespace detection, the sync executor and the
parallel coordinator's result tally.  External collaborators (the GitLab API
and the `git` subprocess) are modelled as oracles supplying the outcome of
each call; Python strings are reasoned about through their character lists.
-/

namespace BashScripts

/-- A GitLab project as surfaced by the listing API: the fields the cloner
reads (`name`, `path`, `namespace["full_path"]`, `namespace["kind"]`,
`ssh_url_to_repo`, `name_with_namespace`). -/
structure Project where
  name : String
  path : String
  namespace_full_path : String
  namespace_kind : String
  ssh_url_to_repo : String
  name_with_namespace : String
deriving DecidableEq, Repr

/-- The `Config` dataclass of `gitlab_cloner.py`. -/
structure Config where
  gitlab_url : String
  gitlab_token : String
  clone_directory : String
  namespace_ : String
  max_workers : Nat := 4
  per_page : Nat := 20
deriving DecidableEq, Repr

/-! ## Path Mapper (`GitLabCloner.get_relative_namespace_path`)

Python's `str.split(sep)` and `sep.join(parts)` for a one-character
separator, on strings viewed as character lists. -/

/-- Python `s.split(sep)` for a single-character separator:
`"".split("/") = [""]`, `"a//b".split("/") = ["a","","b"]`. -/
def pySplit (sep : Char) : List Char → List (List Char)
  | [] => [[]]
  | c :: cs =>
    if c = sep then [] :: pySplit sep cs
    else
      match pySplit sep cs with
      | [] => [[c]]
      | s :: rest => (c :: s) :: rest

/-- Python `sep.join(parts)` for a single-character separator. -/
def pyJoin (sep : Char) : List (List Char) → List Char
  | [] => []
  | [x] => x
  | x :: y :: rest => x ++ sep :: pyJoin sep (y :: rest)

/-- Embedding of `GitLabCloner.get_relative_namespace_path`: if no namespace is
configured, return the full path; otherwise split the full path on `/`,
drop the first component when it equals the configured namespace (joining
the remainder, empty when nothing remains), and return the full path
unchanged when it does not match. -/
def get_relative_namespace_path (namespace_ full_namespace_path : String) : String :=
  if namespace_ = "" then full_namespace_path
  else
    match pySplit '/' full_namespace_path.toList with
    | [] => full_namespace_path
    | p0 :: rest =>
      if p0 = namespace_.toList then
        if rest = [] then "" else String.mk (pyJoin '/' rest)
      else full_namespace_path

/-- Everything of a path after its first `/` (empty when there is none):
"stripping exactly the first path segment". -/
def stripFirstSegment (p : List Char) : List Char :=
  (p.dropWhile (fun c => c ≠ '/')).tail

/-- The Path Mapper rule as the specification words it: with an empty root
the path is unchanged; a path equal to the root maps to the empty relative
path; a path that starts with the root followed by the separator has
exactly its first segment stripped; any other path is unchanged. -/
def mapToLocalPath_spec (r p : String) : String :=
  if r = "" then p
  else if p = r then ""
  else if (r.toList ++ ['/']).isPrefixOf p.toList then String.mk (stripFirstSegment p.toList)
  else p

theorem pySplit_ne_nil (sep : Char) (l : List Char) : pySplit sep l ≠ [] := by
  cases l with
  | nil => simp [pySplit]
  | cons c cs =>
    simp only [pySplit]
    split
    · simp
    · cases h : pySplit sep cs <;> simp

theorem pyJoin_pySplit (sep : Char) (l : List Char) :
    pyJoin sep (pySplit sep l) = l := by
  induction l with
  | nil => simp [pySplit, pyJoin]
  | cons c cs ih =>
    simp only [pySplit]
    split
    · rename_i hc
      subst hc
      cases h : pySplit c cs with
      | nil => exact absurd h (pySplit_ne_nil c cs)
      | cons s rest =>
        rw [h] at ih
        simp [pyJoin, ih]
    · cases h : pySplit sep cs with
      | nil => exact absurd h (pySplit_ne_nil sep cs)
      | cons s rest =>
        rw [h] at ih
        cases rest with
        | nil => simp [pyJoin] at ih ⊢; simp [ih]
        | cons y ys => simp [pyJoin] at ih ⊢; simp [ih]

/-- Splitting a string that contains no separator yields that one piece. -/
theorem pySplit_of_not_mem (sep : Char) (l : List Char) (h : sep ∉ l) :
    pySplit sep l = [l] := by
  induction l with
  | nil => simp [pySplit]
  | cons c cs ih =>
    simp only [List.mem_cons, not_or] at h
    simp only [pySplit]
    rw [if_neg (fun hc => h.1 hc.symm), ih h.2]

/-- Splitting `a ++ sep :: t` when `a` is separator-free peels off `a`. -/
theorem pySplit_append (sep : Char) (a t : List Char) (ha : sep ∉ a) :
    pySplit sep (a ++ sep :: t) = a :: pySplit sep t := by
  induction a with
  | nil => simp [pySplit]
  | cons c cs ih =>
    simp only [List.mem_cons, not_or] at ha
    simp only [List.cons_append, pySplit, List.append_eq]
    rw [if_neg (fun hc => ha.1 hc.symm), ih ha.2]

/-- Every piece produced by `pySplit` is separator-free. -/
theorem not_mem_of_mem_pySplit (sep : Char) (l : List Char) (x : List Char)
    (hx : x ∈ pySplit sep l) : sep ∉ x := by
  induction l generalizing x with
  | nil =>
    simp only [pySplit, List.mem_singleton] at hx
    simp [hx]
  | cons c cs ih =>
    simp only [pySplit] at hx
    split at hx
    · rcases List.mem_cons.mp hx with h | h
      · simp [h]
      · exact ih x h
    · rename_i hc
      cases h : pySplit sep cs with
      | nil => exact absurd h (pySplit_ne_nil sep cs)
      | cons s rest =>
        rw [h] at hx
        have hs : sep ∉ s := ih s (h ▸ List.mem_cons_self s rest)
        rcases List.mem_cons.mp hx with h1 | h1
        · subst h1
          intro hm
          rcases List.mem_cons.mp hm with h2 | h2
          · exact hc h2.symm
          · exact hs h2
        · exact ih x (h ▸ List.mem_cons_of_mem s h1)

theorem dropWhile_append_sep (sep : Char) (a t : List Char) (ha : sep ∉ a) :
    (a ++ sep :: t).dropWhile (fun c => c ≠ sep) = sep :: t := by
  induction a with
  | nil => simp [List.dropWhile]
  | cons c cs ih =>
    simp only [List.mem_cons, not_or] at ha
    have hc : (decide (c ≠ sep)) = true := decide_eq_true (fun hc => ha.1 hc.symm)
    simp only [List.cons_append, List.dropWhile, List.append_eq, hc]
    exact ih ha.2

/-- Exactly the first path segment of a separator-free-root prefix match. -/
theorem stripFirstSegment_append (a t : List Char) (ha : '/' ∉ a) :
    stripFirstSegment (a ++ '/' :: t) = t := by
  rw [stripFirstSegment, dropWhile_append_sep '/' a t ha, List.tail_cons]

/-- C1 (amended): whenever the configured root namespace contains no path
separator, `get_relative_namespace_path` computes exactly the specification's
Path Mapper rule: an empty root leaves every path unchanged, a path equal to
the root maps to the empty relative path, a path starting with the root
followed by the separator has exactly its first segment stripped, and any
other path is returned unchanged.  (When the root itself contains a
separator the code instead compares only the first segment, see the
counterexample.) -/
theorem C1_path_mapper_matches_spec (ns full : String) (hsep : '/' ∉ ns.toList) :
    get_relative_namespace_path ns full = mapToLocalPath_spec ns full := by
  by_cases hns : ns = ""
  · subst hns
    simp [get_relative_namespace_path, mapToLocalPath_spec]
  · cases h : pySplit '/' full.toList with
    | nil => exact absurd h (pySplit_ne_nil _ _)
    | cons p0 rest =>
      have hjoin := pyJoin_pySplit '/' full.toList
      rw [h] at hjoin
      by_cases hp0 : p0 = ns.toList
      · subst hp0
        cases rest with
        | nil =>
          have hfull : full = ns :=
            (String.toList_inj.mp (by simpa [pyJoin] using hjoin)).symm
          subst hfull
          have h' : pySplit '/' full.data = [full.data] := h
          simp [get_relative_namespace_path, mapToLocalPath_spec, hns, h, h']
        | cons y ys =>
          have htail : full.toList = ns.toList ++ '/' :: pyJoin '/' (y :: ys) := by
            simpa [pyJoin] using hjoin.symm
          have hne : full ≠ ns := by
            intro he
            rw [he] at htail
            have := congrArg List.length htail
            simp at this
          have hpre : (ns.toList ++ ['/']).isPrefixOf full.toList = true := by
            rw [List.isPrefixOf_iff_prefix, htail]
            exact ⟨pyJoin '/' (y :: ys), by simp⟩
          have hstrip : stripFirstSegment full.toList = pyJoin '/' (y :: ys) := by
            rw [htail, stripFirstSegment_append _ _ hsep]
          simp only [get_relative_namespace_path, mapToLocalPath_spec, if_neg hns, h,
            if_pos rfl, if_neg hne, hpre, if_pos rfl, hstrip]
          simp
      · have hne : full ≠ ns := by
          intro he
          rw [he, pySplit_of_not_mem '/' ns.toList hsep] at h
          injection h with h1 _
          exact hp0 h1.symm
        have hpre : ¬((ns.toList ++ ['/']).isPrefixOf full.toList = true) := by
          intro hp
          obtain ⟨t, ht⟩ := List.isPrefixOf_iff_prefix.mp hp
          have ht' : full.toList = ns.toList ++ '/' :: t := by
            rw [← ht]; simp
          rw [ht', pySplit_append '/' ns.toList t hsep] at h
          injection h with h1 _
          exact hp0 h1.symm
        simp only [get_relative_namespace_path, mapToLocalPath_spec, if_neg hns, h,
          if_neg hp0, if_neg hne, if_neg hpre]

/-- C1 witness: the spec's own example scenario `rootNamespace="acme"`,
`namespacePath="acme/platform/api"` maps to `platform/api`. -/
theorem C1_witness :
    '/' ∉ "acme".toList ∧
    get_relative_namespace_path "acme" "acme/platform/api" =
      mapToLocalPath_spec "acme" "acme/platform/api" ∧
    get_relative_namespace_path "acme" "acme/platform/api" = "platform/api" :=
  ⟨by decide, C1_path_mapper_matches_spec "acme" "acme/platform/api" (by decide), by decide⟩

/-- C1 counterexample: with a nested (separator-containing) root namespace
`"a/b"` the path `"a/b/c"` does start with the root followed by the
separator, yet the code returns it unchanged instead of stripping the first
segment as the claim states. -/
theorem C1_counterexample :
    ("a/b".toList ++ ['/']).isPrefixOf "a/b/c".toList = true ∧
    get_relative_namespace_path "a/b" "a/b/c" = "a/b/c" ∧
    mapToLocalPath_spec "a/b" "a/b/c" = "b/c" ∧
    ("a/b/c" : String) ≠ "b/c" :=
  ⟨by decide, by decide, by decide, by decide⟩

/-! ## Remote Project Lister (pagination and namespace detection) -/

/-- Outcome of a python-gitlab call, as distinguished by the cloner's
`except` clauses: success, `GitlabGetError`, or another `GitlabError`. -/
inductive LookupResult (α : Type) where
  | ok (a : α)
  | getError
  | apiError
deriving DecidableEq

/-- Errors that escape the listing layer: `ValueError` and `GitlabError`. -/
inductive PyErr where
  | valueError
  | gitlabError
deriving DecidableEq

/-- The pagination loop of `GitLabCloner.get_group_projects_by_namespace`:
request page `page`; a `GitlabError` stops the loop; an empty or partial
page is appended (nothing, for an empty one) and stops the loop; a full
page is appended, the page counter advances, and the loop stops with a
warning once the counter exceeds 1000.  Also returns the number of page
requests issued. -/
def group_pages_loop (per_page : Nat) (api : Nat → Except Unit (List Project))
    (page : Nat) (acc : List Project) (reqs : Nat) : List Project × Nat :=
  match api page with
  | .error _ => (acc, reqs + 1)
  | .ok ps =>
    if ps = [] ∨ ps.length < per_page then (acc ++ ps, reqs + 1)
    else if page + 1 > 1000 then (acc ++ ps, reqs + 1)
    else group_pages_loop per_page api (page + 1) (acc ++ ps) (reqs + 1)
termination_by 1001 - page
decreasing_by simp_wf; omega

/-- Embedding of `GitLabCloner.get_group_projects_by_namespace`: resolve the group
(`GitlabGetError` → empty result), then paginate from page 1.  A
non-`GitlabGetError` API error from the group lookup propagates. -/
def get_group_projects_by_namespace (per_page : Nat) (groupLookup : LookupResult Unit)
    (api : Nat → Except Unit (List Project)) : Except PyErr (List Project × Nat) :=
  match groupLookup with
  | .ok _ => .ok (group_pages_loop per_page api 1 [] 0)
  | .getError => .ok ([], 0)
  | .apiError => .error .gitlabError

/-- The pagination loop of `GitLabCloner.get_user_projects`: identical
shape, but the page cap is 50. -/
def user_pages_loop (per_page : Nat) (api : Nat → Except Unit (List Project))
    (page : Nat) (acc : List Project) (reqs : Nat) : List Project × Nat :=
  match api page with
  | .error _ => (acc, reqs + 1)
  | .ok ps =>
    if ps = [] ∨ ps.length < per_page then (acc ++ ps, reqs + 1)
    else if page + 1 > 50 then (acc ++ ps, reqs + 1)
    else user_pages_loop per_page api (page + 1) (acc ++ ps) (reqs + 1)
termination_by 51 - page
decreasing_by simp_wf; omega

/-- Embedding of `GitLabCloner.get_user_projects`: lists the projects of the
*authenticated token's* user through `projects.list(owned=True, ...)`;
the `username` argument is only logged, never used to select projects. -/
def get_user_projects (username : String) (per_page : Nat)
    (ownedApi : Nat → Except Unit (List Project)) : List Project :=
  (user_pages_loop per_page ownedApi 1 [] 0).1

/-- Step-indexed run of the pagination loop of
`GitLabCloner.get_group_projects` (the no-namespace fallback).  This loop
has **no page cap**: it stops only on an empty page or an API error, so it
is modelled with explicit fuel; `none` means the loop is still running
after `fuel` iterations. -/
def get_group_projects_loop (api : Nat → Except Unit (List Project)) :
    Nat → Nat → List Project → Option (List Project)
  | 0, _, _ => none
  | fuel + 1, page, acc =>
    match api page with
    | .error _ => some acc
    | .ok ps =>
      if ps = [] then some acc
      else get_group_projects_loop api fuel (page + 1)
        (acc ++ ps.filter (fun p => p.namespace_kind == "group"))

/-- Embedding of `GitLabCloner.get_group_projects`, run with `fuel` loop iterations. -/
def get_group_projects (fuel : Nat) (api : Nat → Except Unit (List Project)) :
    Option (List Project) :=
  get_group_projects_loop api fuel 1 []

/-- Embedding of `GitLabCloner.detect_namespace_type`: an empty namespace raises
`ValueError`; the group lookup is attempted first (`GitlabGetError` falls
through); then the user lookup, whose nonempty result means "user";
otherwise `ValueError` is raised; any other `GitlabError` is logged and
re-raised. -/
def detect_namespace_type (namespace_ : String) (groupLookup : LookupResult Unit)
    (userLookup : LookupResult (List String)) : Except PyErr String :=
  if namespace_ = "" then .error .valueError
  else
    match groupLookup with
    | .ok _ => .ok "group"
    | .apiError => .error .gitlabError
    | .getError =>
      match userLookup with
      | .ok users => if users ≠ [] then .ok "user" else .error .valueError
      | .getError => .error .valueError
      | .apiError => .error .gitlabError

/-- The three listers' results, as supplied to `get_namespace_projects`. -/
structure ListerEnv where
  userProjects : List Project
  groupProjects : List Project
  allGroupProjects : List Project
deriving DecidableEq

/-- Embedding of `GitLabCloner.get_namespace_projects`: with no configured namespace,
fall back to all accessible group projects; otherwise detect the namespace
kind and dispatch; every `ValueError` / `GitlabError` / other exception
from detection is caught and yields the empty list. -/
def get_namespace_projects (namespace_ : String) (groupLookup : LookupResult Unit)
    (userLookup : LookupResult (List String)) (env : ListerEnv) : List Project :=
  if namespace_ = "" then env.allGroupProjects
  else
    match detect_namespace_type namespace_ groupLookup userLookup with
    | .ok t =>
      if t = "user" then env.userProjects
      else if t = "group" then env.groupProjects
      else []
    | .error _ => []

/-- A concrete project used for witnesses and counterexamples. -/
def demoProject : Project :=
  { name := "Demo App"
    path := "demo-app"
    namespace_full_path := "acme/platform"
    namespace_kind := "group"
    ssh_url_to_repo := "git@gitlab.example.com:acme/platform/demo-app.git"
    name_with_namespace := "acme / platform / Demo App" }

theorem group_pages_loop_step (per_page : Nat) (api : Nat → Except Unit (List Project))
    (page : Nat) (acc : List Project) (reqs : Nat) (ps : List Project)
    (h : api page = .ok ps) (hlen : ps.length = per_page) (hpp : 0 < per_page)
    (hpage : page + 1 ≤ 1000) :
    group_pages_loop per_page api page acc reqs =
      group_pages_loop per_page api (page + 1) (acc ++ ps) (reqs + 1) := by
  have hcond : ¬(ps = [] ∨ ps.length < per_page) := by
    rintro (rfl | h2)
    · simp at hlen; omega
    · omega
  rw [group_pages_loop, h]
  show (if ps = [] ∨ ps.length < per_page then (acc ++ ps, reqs + 1)
    else if page + 1 > 1000 then (acc ++ ps, reqs + 1)
    else group_pages_loop per_page api (page + 1) (acc ++ ps) (reqs + 1)) = _
  rw [if_neg hcond, if_neg (by omega)]

theorem group_pages_loop_last (per_page : Nat) (api : Nat → Except Unit (List Project))
    (page : Nat) (acc : List Project) (reqs : Nat) (ps : List Project)
    (h : api page = .ok ps) (hlen : ps.length < per_page) :
    group_pages_loop per_page api page acc reqs = (acc ++ ps, reqs + 1) := by
  rw [group_pages_loop, h]
  show (if ps = [] ∨ ps.length < per_page then (acc ++ ps, reqs + 1)
    else if page + 1 > 1000 then (acc ++ ps, reqs + 1)
    else group_pages_loop per_page api (page + 1) (acc ++ ps) (reqs + 1)) = _
  rw [if_pos (Or.inr hlen)]

/-- C4 (amended to page sizes above 3): a listing API returning full pages
for pages 1–5 and a 3-item page 6 makes `get_group_projects_by_namespace`
issue exactly 6 page requests, starting at page 1 and incrementing by 1,
and return the 6 pages concatenated — `5 * pageSize + 3` descriptors. -/
theorem C4_pagination_six_pages (per_page : Nat)
    (api : Nat → Except Unit (List Project))
    (p1 p2 p3 p4 p5 p6 : List Project)
    (hps : 3 < per_page)
    (h1 : api 1 = .ok p1) (h2 : api 2 = .ok p2) (h3 : api 3 = .ok p3)
    (h4 : api 4 = .ok p4) (h5 : api 5 = .ok p5) (h6 : api 6 = .ok p6)
    (l1 : p1.length = per_page) (l2 : p2.length = per_page)
    (l3 : p3.length = per_page) (l4 : p4.length = per_page)
    (l5 : p5.length = per_page) (l6 : p6.length = 3) :
    get_group_projects_by_namespace per_page (.ok ()) api =
      .ok (p1 ++ p2 ++ p3 ++ p4 ++ p5 ++ p6, 6) ∧
    (p1 ++ p2 ++ p3 ++ p4 ++ p5 ++ p6).length = 5 * per_page + 3 := by
  have hpp : 0 < per_page := by omega
  constructor
  · show Except.ok (group_pages_loop per_page api 1 [] 0) = _
    rw [group_pages_loop_step per_page api 1 [] 0 p1 h1 l1 hpp (by omega),
        group_pages_loop_step per_page api 2 _ 1 p2 h2 l2 hpp (by omega),
        group_pages_loop_step per_page api 3 _ 2 p3 h3 l3 hpp (by omega),
        group_pages_loop_step per_page api 4 _ 3 p4 h4 l4 hpp (by omega),
        group_pages_loop_step per_page api 5 _ 4 p5 h5 l5 hpp (by omega),
        group_pages_loop_last per_page api 6 _ 5 p6 h6 (by omega)]
    simp [List.append_assoc]
  · simp only [List.length_append, l1, l2, l3, l4, l5, l6]
    omega

/-- An API stub: five full pages of four projects, then a 3-item page. -/
def pagesStubFour : Nat → Except Unit (List Project) := fun page =>
  if page ≤ 5 then .ok (List.replicate 4 demoProject)
  else if page = 6 then .ok (List.replicate 3 demoProject)
  else .ok []

/-- C4 witness: the scenario at page size 4. -/
theorem C4_witness :
    3 < 4 ∧
    get_group_projects_by_namespace 4 (.ok ()) pagesStubFour =
      .ok (List.replicate 4 demoProject ++ List.replicate 4 demoProject ++
        List.replicate 4 demoProject ++ List.replicate 4 demoProject ++
        List.replicate 4 demoProject ++ List.replicate 3 demoProject, 6) ∧
    (List.replicate 4 demoProject ++ List.replicate 4 demoProject ++
      List.replicate 4 demoProject ++ List.replicate 4 demoProject ++
      List.replicate 4 demoProject ++ List.replicate 3 demoProject).length = 5 * 4 + 3 := by
  have h := C4_pagination_six_pages 4 pagesStubFour
    (List.replicate 4 demoProject) (List.replicate 4 demoProject)
    (List.replicate 4 demoProject) (List.replicate 4 demoProject)
    (List.replicate 4 demoProject) (List.replicate 3 demoProject)
    (by omega) rfl rfl rfl rfl rfl rfl (by simp) (by simp) (by simp) (by simp)
    (by simp) (by simp)
  exact ⟨by omega, h.1, h.2⟩

/-- An API stub: six pages of exactly three projects, then empty pages. -/
def pagesStubThree : Nat → Except Unit (List Project) := fun page =>
  if page ≤ 6 then .ok (List.replicate 3 demoProject) else .ok []

/-- C4 counterexample: at page size 3 the scenario of the claim holds —
five pages of exactly `pageSize` items followed by a 3-item page — yet the
sixth page is a *full* page, so the lister keeps going and issues a 7th
request instead of the claimed exactly 6. -/
theorem C4_counterexample :
    pagesStubThree 1 = .ok (List.replicate 3 demoProject) ∧
    pagesStubThree 2 = .ok (List.replicate 3 demoProject) ∧
    pagesStubThree 3 = .ok (List.replicate 3 demoProject) ∧
    pagesStubThree 4 = .ok (List.replicate 3 demoProject) ∧
    pagesStubThree 5 = .ok (List.replicate 3 demoProject) ∧
    pagesStubThree 6 = .ok (List.replicate 3 demoProject) ∧
    get_group_projects_by_namespace 3 (.ok ()) pagesStubThree =
      .ok (List.replicate 18 demoProject, 7) ∧ (7 : Nat) ≠ 6 := by
  refine ⟨rfl, rfl, rfl, rfl, rfl, rfl, ?_, by omega⟩
  show Except.ok (group_pages_loop 3 pagesStubThree 1 [] 0) = _
  rw [group_pages_loop_step 3 pagesStubThree 1 [] 0 _ rfl rfl (by omega) (by omega),
      group_pages_loop_step 3 pagesStubThree 2 _ 1 _ rfl rfl (by omega) (by omega),
      group_pages_loop_step 3 pagesStubThree 3 _ 2 _ rfl rfl (by omega) (by omega),
      group_pages_loop_step 3 pagesStubThree 4 _ 3 _ rfl rfl (by omega) (by omega),
      group_pages_loop_step 3 pagesStubThree 5 _ 4 _ rfl rfl (by omega) (by omega),
      group_pages_loop_step 3 pagesStubThree 6 _ 5 _ rfl rfl (by omega) (by omega),
      group_pages_loop_last 3 pagesStubThree 7 _ 6 [] rfl (by simp)]
  simp

/-- C5: the no-namespace fallback lister `get_group_projects` has **no**
page cap: against an API stub answering every page with the same nonempty
full page, its loop is still running after any number of iterations. -/
theorem C5_fallback_lister_has_no_page_cap (fuel : Nat) :
    get_group_projects fuel (fun _ => .ok [demoProject]) = none := by
  have hloop : ∀ f page acc,
      get_group_projects_loop (fun _ => .ok [demoProject]) f page acc = none := by
    intro f
    induction f with
    | zero => intro _ _; rfl
    | succ n ih => intro page acc; simp [get_group_projects_loop, ih]
  exact hloop fuel 1 []

/-- C9: namespace classification tries the group lookup first and returns
"group" on success; otherwise it tries the user lookup and returns "user"
when it yields a nonempty result; when neither succeeds it fails with the
namespace-not-found `ValueError`; and `get_namespace_projects` converts any
detection failure into an empty project list instead of propagating it. -/
theorem C9_detection_order_and_error_containment (ns : String)
    (g : LookupResult Unit) (u : LookupResult (List String)) (env : ListerEnv)
    (hns : ns ≠ "") :
    (∀ x, g = .ok x → detect_namespace_type ns g u = .ok "group") ∧
    (∀ us, g = .getError → u = .ok us → us ≠ [] →
      detect_namespace_type ns g u = .ok "user") ∧
    (g = .getError → (u = .getError ∨ u = .ok []) →
      detect_namespace_type ns g u = .error .valueError) ∧
    (∀ e, detect_namespace_type ns g u = .error e →
      get_namespace_projects ns g u env = []) := by
  refine ⟨?_, ?_, ?_, ?_⟩
  · rintro x rfl
    simp [detect_namespace_type, hns]
  · rintro us rfl rfl hus
    simp [detect_namespace_type, hns, hus]
  · rintro rfl (rfl | rfl) <;> simp [detect_namespace_type, hns]
  · intro e he
    simp [get_namespace_projects, hns, he]

/-- C9 witness: a namespace that is neither a group nor a user yields the
namespace-not-found error and an empty project list. -/
theorem C9_witness :
    ("team" : String) ≠ "" ∧
    detect_namespace_type "team" .getError (.ok []) = .error .valueError ∧
    get_namespace_projects "team" .getError (.ok []) ⟨[demoProject], [], []⟩ = [] := by
  have h := C9_detection_order_and_error_containment "team" .getError (.ok [])
    ⟨[demoProject], [], []⟩ (by decide)
  have hd := h.2.2.1 rfl (Or.inr rfl)
  exact ⟨by decide, hd, h.2.2.2 .valueError hd⟩

/-- C10: `get_user_projects` ignores the requested username entirely: for
any two usernames and the same API state (the `owned=True` listing tied to
the authenticated token), it returns the same project list. -/
theorem C10_user_lister_ignores_username (u1 u2 : String) (per_page : Nat)
    (ownedApi : Nat → Except Unit (List Project)) :
    get_user_projects u1 per_page ownedApi = get_user_projects u2 per_page ownedApi := rfl

/-! ## Sync Executor (`GitLabCloner.safe_clone_project`) -/

/-- A completed subprocess (`subprocess.CompletedProcess`). -/
structure Completed where
  returncode : Int
  stdout : String
  stderr : String
deriving DecidableEq, Repr

/-- What one `subprocess.run` invocation would do, before `check`/timeout
handling turns it into a value or an exception. -/
inductive RunResult where
  | completed (c : Completed)
  | timedOut
deriving DecidableEq, Repr

/-- The Python exceptions distinguished by the sync executor's handlers. -/
inductive PyExn where
  | timeoutExpired
  | calledProcessError (stderr : String)
  | osError
  | other
deriving DecidableEq, Repr

/-- Python `subprocess.run(..., check=True)`: a timeout raises `TimeoutExpired`,
a nonzero exit raises `CalledProcessError`. -/
def runCheck (r : RunResult) : Except PyExn Completed :=
  match r with
  | .timedOut => .error .timeoutExpired
  | .completed c =>
    if c.returncode ≠ 0 then .error (.calledProcessError c.stderr) else .ok c

/-- Python `subprocess.run(..., check=False)`: only a timeout raises. -/
def runNoCheck (r : RunResult) : Except PyExn Completed :=
  match r with
  | .timedOut => .error .timeoutExpired
  | .completed c => .ok c

/-- One external `git` invocation: its argument vector, its `timeout=`
argument (`none` when no timeout is passed), and its `check=` flag. -/
structure Cmd where
  args : List String
  timeout : Option Nat
  check : Bool
deriving DecidableEq, Repr

/-- A filesystem or subprocess side effect of the sync executor. -/
inductive Action where
  | mkdirP (dir : String)
  | run (cmd : Cmd)
deriving DecidableEq, Repr

/-- The oracle for one repository sync: what the filesystem and each `git`
subprocess invocation would answer. -/
structure GitEnv where
  mkdirTargetExn : Option PyExn
  projectDirExists : Bool
  symbolicRef : RunResult
  checkoutProbe : String → RunResult
  checkoutMain : String → RunResult
  pull : RunResult
  branchR : RunResult
  clone : RunResult
  mkdirProjectExn : Option PyExn
  gitInit : RunResult
  remoteAdd : RunResult

def symbolicRefCmd : Cmd := ⟨["git", "symbolic-ref", "refs/remotes/origin/HEAD"], some 30, true⟩
def checkoutProbeCmd (b : String) : Cmd := ⟨["git", "checkout", b], some 30, true⟩
def checkoutMainCmd (b : String) : Cmd := ⟨["git", "checkout", b], some 60, true⟩
def pullCmd : Cmd := ⟨["git", "pull"], some 60, true⟩
def branchRCmd : Cmd := ⟨["git", "branch", "-r"], some 30, false⟩
def cloneCmd (url : String) : Cmd := ⟨["git", "clone", url], some 300, true⟩
def gitInitCmd : Cmd := ⟨["git", "init"], some 30, true⟩
def remoteAddCmd (url : String) : Cmd := ⟨["git", "remote", "add", "origin", url], some 30, true⟩

/-- Python `s.strip()`: drop leading and trailing whitespace. -/
def pyStrip (l : List Char) : List Char :=
  ((l.dropWhile Char.isWhitespace).reverse.dropWhile Char.isWhitespace).reverse

/-- The fallback loop of `get_default_branch`: try `git checkout <branch>`
for each candidate in order, returning the first that succeeds
(`CalledProcessError` and `TimeoutExpired` both mean "try the next"). -/
def probe_branches (env : GitEnv) : List String → Option String × List Action
  | [] => (none, [])
  | b :: bs =>
    match runCheck (env.checkoutProbe b) with
    | .ok _ => (some b, [.run (checkoutProbeCmd b)])
    | .error _ =>
      let r := probe_branches env bs
      (r.1, .run (checkoutProbeCmd b) :: r.2)

/-- Embedding of `GitLabCloner.get_default_branch`: read the remote symbolic HEAD and
take the last `/`-separated component of its trimmed output; on
`CalledProcessError`/`TimeoutExpired` fall back to probing `main`,
`master`, `develop`.  Also returns the invocations issued. -/
def get_default_branch (env : GitEnv) : Option String × List Action :=
  match runCheck env.symbolicRef with
  | .ok c =>
    (some (String.mk ((pySplit '/' (pyStrip c.stdout.toList)).getLastD [])),
     [.run symbolicRefCmd])
  | .error _ =>
    let r := probe_branches env ["main", "master", "develop"]
    (r.1, .run symbolicRefCmd :: r.2)

/-- Python `sub in s` on strings: substring (infix) containment. -/
def strContains (s sub : String) : Bool := decide (sub.toList <:+: s.toList)

/-- The three "empty repository" stderr substrings `safe_clone_project`
recognizes. -/
def isEmptyRepoStderr (stderr : String) : Bool :=
  strContains stderr "does not appear to be a git repository" ||
  strContains stderr "remote: warning: You appear to have cloned an empty repository" ||
  strContains stderr "warning: You appear to have cloned an empty repository"

/-- Python `Path(config.clone_directory) / relative_namespace_path` — the clone
root itself when the relative path is empty. -/
def target_dir (cfg : Config) (p : Project) : String :=
  let rel := get_relative_namespace_path cfg.namespace_ p.namespace_full_path
  if rel = "" then cfg.clone_directory else cfg.clone_directory ++ "/" ++ rel

/-- Python `target_dir / project.path` (the URL-safe slug, not the display name). -/
def project_dir (cfg : Config) (p : Project) : String :=
  target_dir cfg p ++ "/" ++ p.path

/-- The body of `safe_clone_project`'s `try` block (lines 393–530): the
per-repository sync state machine.  Returns the Python result or the
exception that escapes to the outer handlers, together with the actions
performed up to that point. -/
def clone_body (cfg : Config) (p : Project) (env : GitEnv) :
    Except PyExn Bool × List Action :=
  match env.mkdirTargetExn with
  | some e => (.error e, [])
  | none =>
    let mk : List Action := [.mkdirP (target_dir cfg p)]
    if env.projectDirExists then
      match get_default_branch env with
      | (some b, tr) =>
        match runCheck (env.checkoutMain b) with
        | .error e => (.error e, mk ++ tr ++ [.run (checkoutMainCmd b)])
        | .ok _ =>
          match runCheck env.pull with
          | .error e => (.error e, mk ++ tr ++ [.run (checkoutMainCmd b), .run pullCmd])
          | .ok _ => (.ok true, mk ++ tr ++ [.run (checkoutMainCmd b), .run pullCmd])
      | (none, tr) =>
        match runNoCheck env.branchR with
        | .error e => (.error e, mk ++ tr ++ [.run branchRCmd])
        | .ok c =>
          if pyStrip c.stdout.toList = [] then (.ok true, mk ++ tr ++ [.run branchRCmd])
          else (.ok false, mk ++ tr ++ [.run branchRCmd])
    else
      match runCheck env.clone with
      | .ok _ =>
        let r := get_default_branch env
        (.ok true, mk ++ [.run (cloneCmd p.ssh_url_to_repo)] ++ r.2)
      | .error (.calledProcessError stderr) =>
        if isEmptyRepoStderr stderr then
          match env.mkdirProjectExn with
          | some e => (.error e, mk ++ [.run (cloneCmd p.ssh_url_to_repo)])
          | none =>
            let pre := mk ++ [.run (cloneCmd p.ssh_url_to_repo), .mkdirP (project_dir cfg p)]
            match runCheck env.gitInit with
            | .error e => (.error e, pre ++ [.run gitInitCmd])
            | .ok _ =>
              match runCheck env.remoteAdd with
              | .error e =>
                (.error e, pre ++ [.run gitInitCmd, .run (remoteAddCmd p.ssh_url_to_repo)])
              | .ok _ =>
                (.ok true, pre ++ [.run gitInitCmd, .run (remoteAddCmd p.ssh_url_to_repo)])
        else (.error (.calledProcessError stderr), mk ++ [.run (cloneCmd p.ssh_url_to_repo)])
      | .error e => (.error e, mk ++ [.run (cloneCmd p.ssh_url_to_repo)])

/-- Embedding of `GitLabCloner.safe_clone_project`: the body's exceptions are caught by
the four handlers (`TimeoutExpired`; `CalledProcessError`;
`OSError`/`PermissionError`; bare `Exception`) and all converted to
`False`. -/
def safe_clone_project (cfg : Config) (p : Project) (env : GitEnv) : Bool :=
  match (clone_body cfg p env).1 with
  | .ok b => b
  | .error .timeoutExpired => false
  | .error (.calledProcessError _) => false
  | .error .osError => false
  | .error .other => false

/-- The external actions `safe_clone_project` performs. -/
def safe_clone_actions (cfg : Config) (p : Project) (env : GitEnv) : List Action :=
  (clone_body cfg p env).2

/-- Embedding of `GitLabCloner.clone_project_parallel`: wraps `safe_clone_project` into
a `(name_with_namespace, success, error)` outcome triple; its own
catch-all except clause keeps any exception from escaping the worker. -/
def clone_project_parallel (cfg : Config) (p : Project) (env : GitEnv) :
    String × Bool × Option String :=
  if safe_clone_project cfg p env then (p.name_with_namespace, true, none)
  else (p.name_with_namespace, false, some "Partial failure")

/-- The `git` invocations among a list of actions. -/
def gitCmds (as : List Action) : List Cmd :=
  as.filterMap (fun a => match a with | .run c => some c | .mkdirP _ => none)

/-- The result-collection loop of `clone_all_projects`: fold the completed
outcomes, in arrival order, into `(successful, failed, failed_projects)`. -/
def tally_results (results : List (String × Bool × Option String)) :
    Nat × Nat × List (String × Option String) :=
  results.foldl
    (fun st r =>
      if r.2.1 then (st.1 + 1, st.2.1, st.2.2)
      else (st.1, st.2.1 + 1, st.2.2 ++ [(r.1, r.2.2)]))
    (0, 0, [])

/-- Embedding of the repository-name computation of `github_repos.py`:
`repo_url.split("/")[-1].replace(".git", "")`. -/
def github_repo_name (repo_url : String) : String :=
  ((repo_url.splitOn "/").getLastD "").replace ".git" ""

/-- The `git` invocations `clone_or_pull_repositories` of
`github_repos.py` issues: per URL, a `git pull` when the repository
directory exists, else a `git clone`; both with `check=True` and **no**
`timeout=` argument. -/
def clone_or_pull_repositories (dirExists : String → Bool) (repos : List String) : List Cmd :=
  repos.flatMap (fun repo_url =>
    if dirExists (github_repo_name repo_url) then [⟨["git", "pull"], none, true⟩]
    else [⟨["git", "clone", repo_url], none, true⟩])

/-- A benign oracle where every external call succeeds. -/
def happyEnv : GitEnv :=
  { mkdirTargetExn := none
    projectDirExists := false
    symbolicRef := .completed ⟨0, "refs/remotes/origin/main", ""⟩
    checkoutProbe := fun _ => .completed ⟨0, "", ""⟩
    checkoutMain := fun _ => .completed ⟨0, "", ""⟩
    pull := .completed ⟨0, "", ""⟩
    branchR := .completed ⟨0, "", ""⟩
    clone := .completed ⟨0, "", ""⟩
    mkdirProjectExn := none
    gitInit := .completed ⟨0, "", ""⟩
    remoteAdd := .completed ⟨0, "", ""⟩ }

/-- A sample configuration used by witnesses. -/
def demoConfig : Config :=
  { gitlab_url := "gitlab.example.com"
    gitlab_token := "token"
    clone_directory := "./repos"
    namespace_ := "acme" }

/-- C3: every exception the sync body raises — timeout, version-control
failure, filesystem error or anything else — is caught at the executor
boundary: whenever `clone_body` ends in an exception of any kind,
`safe_clone_project` returns `false` and `clone_project_parallel` yields a
failed outcome triple for that repository; nothing propagates further. -/
theorem C3_executor_catches_all_errors (cfg : Config) (p : Project) (env : GitEnv)
    (e : PyExn) (he : (clone_body cfg p env).1 = .error e) :
    safe_clone_project cfg p env = false ∧
    clone_project_parallel cfg p env =
      (p.name_with_namespace, false, some "Partial failure") := by
  have hs : safe_clone_project cfg p env = false := by
    simp only [safe_clone_project, he]
    cases e <;> rfl
  refine ⟨hs, ?_⟩
  simp [clone_project_parallel, hs]

/-- An oracle where the clone subprocess exceeds its timeout. -/
def cloneTimeoutEnv : GitEnv := { happyEnv with clone := .timedOut }

/-- C3 witness: a clone timeout becomes a failed outcome triple. -/
theorem C3_witness :
    (clone_body demoConfig demoProject cloneTimeoutEnv).1 = .error .timeoutExpired ∧
    safe_clone_project demoConfig demoProject cloneTimeoutEnv = false ∧
    clone_project_parallel demoConfig demoProject cloneTimeoutEnv =
      ("acme / platform / Demo App", false, some "Partial failure") := by
  have h := C3_executor_catches_all_errors demoConfig demoProject cloneTimeoutEnv
    .timeoutExpired rfl
  exact ⟨rfl, h.1, h.2⟩

theorem tally_results_foldl_len (rs : List (String × Bool × Option String))
    (s f : Nat) (fp : List (String × Option String)) :
    ((rs.foldl
      (fun st r =>
        if r.2.1 then (st.1 + 1, st.2.1, st.2.2)
        else (st.1, st.2.1 + 1, st.2.2 ++ [(r.1, r.2.2)]))
      (s, f, fp)).1 +
     (rs.foldl
      (fun st r =>
        if r.2.1 then (st.1 + 1, st.2.1, st.2.2)
        else (st.1, st.2.1 + 1, st.2.2 ++ [(r.1, r.2.2)]))
      (s, f, fp)).2.1) = s + f + rs.length := by
  induction rs generalizing s f fp with
  | nil => simp
  | cons r rest ih =>
    by_cases hr : r.2.1
    · simp only [List.foldl_cons, if_pos hr, ih, List.length_cons]
      omega
    · simp only [List.foldl_cons, if_neg hr, ih, List.length_cons]
      omega

/-- C2: for `n` submitted descriptors and any worker count `w ≤ n`, the
coordinator's tally over the collected outcomes — which may arrive in any
order, modelled as an arbitrary permutation of the per-descriptor results —
satisfies `successful + failed = n`, however many individual syncs fail. -/
theorem C2_no_outcome_lost (cfg : Config) (projects : List Project)
    (envs : Project → GitEnv) (results : List (String × Bool × Option String))
    (w : Nat) (hw : w ≤ projects.length)
    (hperm : results.Perm
      (projects.map (fun p => clone_project_parallel cfg p (envs p)))) :
    (tally_results results).1 + (tally_results results).2.1 = projects.length := by
  have hlen := tally_results_foldl_len results 0 0 []
  simp only [tally_results]
  rw [hlen, hperm.length_eq, List.length_map]
  omega

/-- An oracle where the pull subprocess fails with a nonzero exit. -/
def pullFailEnv : GitEnv :=
  { happyEnv with
    projectDirExists := true
    pull := .completed ⟨1, "", "fatal: unable to access remote"⟩ }

/-- C2 witness: two descriptors, one worker, one failing sync — the tally
still accounts for both outcomes. -/
theorem C2_witness :
    1 ≤ ([demoProject, demoProject].length) ∧
    (tally_results ([demoProject, demoProject].map
      (fun p => clone_project_parallel demoConfig p pullFailEnv))).1 +
    (tally_results ([demoProject, demoProject].map
      (fun p => clone_project_parallel demoConfig p pullFailEnv))).2.1 = 2 := by
  refine ⟨by simp, ?_⟩
  have h := C2_no_outcome_lost demoConfig [demoProject, demoProject]
    (fun _ => pullFailEnv)
    ([demoProject, demoProject].map
      (fun p => clone_project_parallel demoConfig p pullFailEnv))
    1 (by simp) (List.Perm.refl _)
  exact h

/-- C6: for an absent target directory, a failed clone is classified by
its stderr: when it contains a recognized empty-repository substring the
executor creates the project directory, runs `git init`, registers
`origin` with the descriptor's clone URL and reports success (the recovery
commands being assumed to succeed); when the stderr matches none of the
substrings the sync is a hard per-repository failure. -/
theorem C6_empty_repository_recovery (cfg : Config) (p : Project) (env : GitEnv)
    (c i r : Completed)
    (habs : env.projectDirExists = false)
    (hmk : env.mkdirTargetExn = none)
    (hclone : env.clone = .completed c)
    (hrc : c.returncode ≠ 0)
    (hmkp : env.mkdirProjectExn = none)
    (hinit : runCheck env.gitInit = .ok i)
    (hadd : runCheck env.remoteAdd = .ok r) :
    safe_clone_project cfg p env = isEmptyRepoStderr c.stderr ∧
    safe_clone_actions cfg p env =
      [.mkdirP (target_dir cfg p), .run (cloneCmd p.ssh_url_to_repo)] ++
      (if isEmptyRepoStderr c.stderr then
        [.mkdirP (project_dir cfg p), .run gitInitCmd,
         .run (remoteAddCmd p.ssh_url_to_repo)]
      else []) := by
  have hrun : runCheck env.clone = .error (.calledProcessError c.stderr) := by
    rw [hclone]
    simp [runCheck, hrc]
  cases hie : isEmptyRepoStderr c.stderr with
  | true =>
    constructor
    · simp [safe_clone_project, clone_body, hmk, habs, hrun, hie, hmkp, hinit, hadd]
    · simp [safe_clone_actions, clone_body, hmk, habs, hrun, hie, hmkp, hinit, hadd]
  | false =>
    constructor
    · simp [safe_clone_project, clone_body, hmk, habs, hrun, hie]
    · simp [safe_clone_actions, clone_body, hmk, habs, hrun, hie]

/-- An oracle where the clone fails with the empty-repository warning. -/
def emptyCloneEnv : GitEnv :=
  { happyEnv with
    clone := .completed
      ⟨128, "", "warning: You appear to have cloned an empty repository."⟩ }

/-- C6 witness: the empty-repository warning turns a failed clone into a
successful sync that creates the directory, initializes it, and registers
the `origin` remote. -/
theorem C6_witness :
    emptyCloneEnv.projectDirExists = false ∧
    isEmptyRepoStderr "warning: You appear to have cloned an empty repository." = true ∧
    safe_clone_project demoConfig demoProject emptyCloneEnv = true ∧
    safe_clone_actions demoConfig demoProject emptyCloneEnv =
      [.mkdirP (target_dir demoConfig demoProject),
       .run (cloneCmd demoProject.ssh_url_to_repo),
       .mkdirP (project_dir demoConfig demoProject), .run gitInitCmd,
       .run (remoteAddCmd demoProject.ssh_url_to_repo)] := by
  have h := C6_empty_repository_recovery demoConfig demoProject emptyCloneEnv
    ⟨128, "", "warning: You appear to have cloned an empty repository."⟩
    ⟨0, "", ""⟩ ⟨0, "", ""⟩ rfl rfl rfl (by decide) rfl rfl rfl
  refine ⟨rfl, by decide, ?_, ?_⟩
  · rw [h.1]
    decide
  · rw [h.2]
    decide

/-- Whether an `Except` value is a success. -/
def isOkE {ε α : Type} (x : Except ε α) : Bool :=
  match x with
  | .ok _ => true
  | .error _ => false

theorem probe_branches_find (env : GitEnv) (l : List String) :
    (probe_branches env l).1 =
      l.find? (fun b => isOkE (runCheck (env.checkoutProbe b))) := by
  induction l with
  | nil => rfl
  | cons b bs ih =>
    simp only [probe_branches, List.find?]
    cases h : runCheck (env.checkoutProbe b) with
    | ok c => simp [isOkE, h]
    | error e => simp [isOkE, h, ih]

/-- C7: for a present target directory, the executor resolves the default
branch from the remote symbolic HEAD first and, on failure, by probing
`main`, `master`, `develop` in that order; a resolved branch is checked
out and then pulled and (these succeeding) the sync succeeds; with no
resolved branch the sync succeeds exactly when `git branch -r` reports no
remote branches. -/
theorem C7_present_directory_flow (cfg : Config) (p : Project) (env : GitEnv)
    (hmk : env.mkdirTargetExn = none)
    (hex : env.projectDirExists = true) :
    (∀ c : Completed, runCheck env.symbolicRef = .ok c →
      (get_default_branch env).1 =
        some (String.mk ((pySplit '/' (pyStrip c.stdout.toList)).getLastD []))) ∧
    (∀ e : PyExn, runCheck env.symbolicRef = .error e →
      (get_default_branch env).1 =
        ["main", "master", "develop"].find?
          (fun b => isOkE (runCheck (env.checkoutProbe b)))) ∧
    (∀ (b : String) (c1 c2 : Completed), (get_default_branch env).1 = some b →
      runCheck (env.checkoutMain b) = .ok c1 → runCheck env.pull = .ok c2 →
      safe_clone_project cfg p env = true ∧
      safe_clone_actions cfg p env =
        [.mkdirP (target_dir cfg p)] ++ (get_default_branch env).2 ++
          [.run (checkoutMainCmd b), .run pullCmd]) ∧
    (∀ c : Completed, (get_default_branch env).1 = none →
      env.branchR = .completed c →
      (pyStrip c.stdout.toList = [] → safe_clone_project cfg p env = true) ∧
      (pyStrip c.stdout.toList ≠ [] → safe_clone_project cfg p env = false)) := by
  refine ⟨?_, ?_, ?_, ?_⟩
  · intro c hc
    simp [get_default_branch, hc]
  · intro e he
    simp [get_default_branch, he, probe_branches_find]
  · intro b c1 c2 hb h1 h2
    rcases hgd : get_default_branch env with ⟨fst, tr⟩
    rw [hgd] at hb
    simp only at hb
    subst hb
    constructor
    · simp [safe_clone_project, clone_body, hmk, hex, hgd, h1, h2]
    · simp [safe_clone_actions, clone_body, hmk, hex, hgd, h1, h2]
  · intro c hnone hbr
    rcases hgd : get_default_branch env with ⟨fst, tr⟩
    rw [hgd] at hnone
    simp only at hnone
    subst hnone
    constructor
    · intro h0
      have h0' : pyStrip c.stdout.data = [] := h0
      simp [safe_clone_project, clone_body, hmk, hex, hgd, hbr, runNoCheck, h0']
    · intro h0
      have h0' : ¬(pyStrip c.stdout.data = []) := h0
      simp [safe_clone_project, clone_body, hmk, hex, hgd, hbr, runNoCheck, h0']

/-- An oracle for an already-cloned repository where everything succeeds. -/
def presentEnv : GitEnv := { happyEnv with projectDirExists := true }

/-- C7 witness: symbolic HEAD names `main`; checkout and pull succeed, so
the sync succeeds. -/
theorem C7_witness :
    presentEnv.mkdirTargetExn = none ∧
    presentEnv.projectDirExists = true ∧
    (get_default_branch presentEnv).1 = some "main" ∧
    safe_clone_project demoConfig demoProject presentEnv = true := by
  have h := C7_present_directory_flow demoConfig demoProject presentEnv rfl rfl
  have h3 := (h.2.2.1 "main" ⟨0, "", ""⟩ ⟨0, "", ""⟩ (by decide) rfl rfl).1
  exact ⟨rfl, rfl, by decide, h3⟩

/-- A command passes a bounded (positive, finite) timeout. -/
def cmdBounded (c : Cmd) : Prop := ∃ t, c.timeout = some t ∧ 0 < t

/-- A recorded action is either a directory creation or a bounded-timeout
command invocation. -/
def actionBounded : Action → Prop
  | .mkdirP _ => True
  | .run c => cmdBounded c

theorem probe_branches_bounded (env : GitEnv) (l : List String) :
    ∀ a ∈ (probe_branches env l).2, actionBounded a := by
  induction l with
  | nil => intro a ha; simp [probe_branches] at ha
  | cons b bs ih =>
    intro a ha
    simp only [probe_branches] at ha
    cases h : runCheck (env.checkoutProbe b) with
    | ok c =>
      rw [h] at ha
      simp only [List.mem_singleton] at ha
      subst ha
      exact ⟨30, rfl, by omega⟩
    | error e =>
      rw [h] at ha
      simp only [List.mem_cons] at ha
      rcases ha with rfl | ha
      · exact ⟨30, rfl, by omega⟩
      · exact ih a ha

theorem get_default_branch_bounded (env : GitEnv) :
    ∀ a ∈ (get_default_branch env).2, actionBounded a := by
  intro a ha
  simp only [get_default_branch] at ha
  cases h : runCheck env.symbolicRef with
  | ok c =>
    rw [h] at ha
    simp only [List.mem_singleton] at ha
    subst ha
    exact ⟨30, rfl, by omega⟩
  | error e =>
    rw [h] at ha
    simp only [List.mem_cons] at ha
    rcases ha with rfl | ha
    · exact ⟨30, rfl, by omega⟩
    · exact probe_branches_bounded env ["main", "master", "develop"] a ha

theorem clone_body_actions_bounded (cfg : Config) (p : Project) (env : GitEnv) :
    ∀ a ∈ (clone_body cfg p env).2, actionBounded a := by
  have hgdb := get_default_branch_bounded env
  intro a ha
  simp only [clone_body] at ha
  split at ha
  · simp at ha
  · split at ha
    · -- present directory: match on get_default_branch
      split at ha
      · -- (some b, tr)
        rename_i b tr heq
        have htr : ∀ x ∈ tr, actionBounded x := by
          rw [heq] at hgdb
          exact hgdb
        split at ha
        · simp at ha
          rcases ha with rfl | ha | rfl
          · trivial
          · exact htr a ha
          · exact ⟨60, rfl, by omega⟩
        · split at ha <;>
          · simp at ha
            rcases ha with rfl | ha | rfl | rfl
            · trivial
            · exact htr a ha
            · exact ⟨60, rfl, by omega⟩
            · exact ⟨60, rfl, by omega⟩
      · -- (none, tr)
        rename_i tr heq
        have htr : ∀ x ∈ tr, actionBounded x := by
          rw [heq] at hgdb
          exact hgdb
        split at ha
        · simp at ha
          rcases ha with rfl | ha | rfl
          · trivial
          · exact htr a ha
          · exact ⟨30, rfl, by omega⟩
        · split at ha <;>
          · simp at ha
            rcases ha with rfl | ha | rfl
            · trivial
            · exact htr a ha
            · exact ⟨30, rfl, by omega⟩
    · -- absent directory: match on runCheck env.clone
      split at ha
      · -- clone succeeded
        simp at ha
        rcases ha with rfl | rfl | ha
        · trivial
        · exact ⟨300, rfl, by omega⟩
        · exact hgdb a ha
      · -- clone raised CalledProcessError
        split at ha
        · -- empty-repository stderr
          split at ha
          · -- project mkdir raised
            simp at ha
            rcases ha with rfl | rfl
            · trivial
            · exact ⟨300, rfl, by omega⟩
          · split at ha
            · simp at ha
              rcases ha with rfl | rfl | rfl | rfl
              · trivial
              · exact ⟨300, rfl, by omega⟩
              · trivial
              · exact ⟨30, rfl, by omega⟩
            · split at ha <;>
              · simp at ha
                rcases ha with rfl | rfl | rfl | rfl | rfl
                · trivial
                · exact ⟨300, rfl, by omega⟩
                · trivial
                · exact ⟨30, rfl, by omega⟩
                · exact ⟨30, rfl, by omega⟩
        · -- unrecognized stderr
          simp at ha
          rcases ha with rfl | rfl
          · trivial
          · exact ⟨300, rfl, by omega⟩
      · -- clone raised another exception
        simp at ha
        rcases ha with rfl | rfl
        · trivial
        · exact ⟨300, rfl, by omega⟩

/-- C8 (amended to the GitLab cloner): every `git` invocation the GitLab
sync logic issues carries a bounded (positive, finite) timeout, and a
command exceeding its timeout makes only this repository's sync fail —
the timeout exception is converted to a `false` outcome at the executor
boundary.  (The GitHub script's invocations carry no timeout, see the
counterexample.) -/
theorem C8_gitlab_commands_bounded_timeouts (cfg : Config) (p : Project) (env : GitEnv) :
    (∀ c ∈ gitCmds (safe_clone_actions cfg p env), ∃ t, c.timeout = some t ∧ 0 < t) ∧
    ((clone_body cfg p env).1 = .error .timeoutExpired →
      safe_clone_project cfg p env = false) := by
  constructor
  · intro c hc
    rw [gitCmds, List.mem_filterMap] at hc
    obtain ⟨a, ha, hmap⟩ := hc
    cases a with
    | mkdirP d => simp at hmap
    | run c' =>
      simp only [Option.some.injEq] at hmap
      subst hmap
      exact clone_body_actions_bounded cfg p env _ ha
  · intro h
    simp [safe_clone_project, h]

/-- An oracle where the pull subprocess exceeds its timeout. -/
def pullTimeoutEnv : GitEnv :=
  { happyEnv with projectDirExists := true, pull := .timedOut }

/-- C8 witness: a pull timeout is converted into a failed outcome for this
one repository. -/
theorem C8_witness :
    (clone_body demoConfig demoProject pullTimeoutEnv).1 = .error .timeoutExpired ∧
    safe_clone_project demoConfig demoProject pullTimeoutEnv = false := by
  have h := C8_gitlab_commands_bounded_timeouts demoConfig demoProject pullTimeoutEnv
  exact ⟨rfl, h.2 rfl⟩

/-- C8 counterexample: `clone_or_pull_repositories` of `github_repos.py`
issues its `git clone` (and `git pull`) invocations with **no** `timeout=`
argument, so not every version-control invocation of the sync logic
carries a bounded timeout. -/
theorem C8_counterexample :
    clone_or_pull_repositories (fun _ => false) ["git@github.com:acme/tool.git"] =
      [⟨["git", "clone", "git@github.com:acme/tool.git"], none, true⟩] ∧
    (⟨["git", "clone", "git@github.com:acme/tool.git"], none, true⟩ : Cmd).timeout = none :=
  ⟨rfl, rfl⟩

end BashScripts
